import Mathlib

/-!
Shallow embedding of the Rewire expectation-evaluation core
(src/python/rewire/rules.py, db.py, server.py) and proofs about it.

Conventions:
- Python ints are modelled as `Int` (arbitrary precision, matching Python).
- JSON parameter objects (the result of `json.loads(params_json)`) are
  modelled as association lists `List (String × JVal)` over the value
  fragment the code actually uses (numbers and booleans).
- The wall clock (`now_i` in the Python code, `int(time.time())`) is made
  an explicit argument `t`/`now` of every function that reads it.
- Fallible Python code (raised exceptions) is modelled with `Except String`.
-/

/-- JSON values appearing in Rewire `params_json` objects (numbers and booleans). -/
inductive JVal where
  | jnum (n : Int)
  | jbool (b : Bool)
deriving DecidableEq, Repr

/-- Python `int(x)` on a JSON number or boolean (`int(True) = 1`, `int(False) = 0`). -/
def jToInt : JVal → Int
  | .jnum n => n
  | .jbool b => if b then 1 else 0

/-- Python `bool(x)` truthiness on a JSON number or boolean. -/
def jToBool : JVal → Bool
  | .jnum n => n != 0
  | .jbool b => b

/-- Dict lookup `obj.get(key)` / `obj[key]` on a parsed JSON object. -/
def lookupJ : List (String × JVal) → String → Option JVal
  | [], _ => none
  | (k, v) :: rest, key => if k = key then some v else lookupJ rest key

/-- ScheduleParams (rules.py 24-29): constraints for schedule expectations. -/
structure ScheduleParams where
  max_runtime_s : Int
  min_spacing_s : Int
  allow_overlap : Bool
deriving DecidableEq, Repr

/-- AlertPathParams (rules.py 32-36): constraints for alert-path expectations. -/
structure AlertPathParams where
  ack_window_s : Int
  test_interval_s : Int
deriving DecidableEq, Repr

/-- The return type of parse_params: a type-discriminated parameter record. -/
inductive Params where
  | schedule (p : ScheduleParams)
  | alertPath (p : AlertPathParams)
deriving DecidableEq, Repr

/-- parse_params (rules.py 39-53): for "schedule", `obj.get(key, default)` is used
(missing keys default, numeric to 0 and allow_overlap to False); for "alert_path",
`obj["ack_window_s"]` and `obj["test_interval_s"]` are subscripted directly, so a
missing key raises KeyError; any other type raises ValueError. -/
def parse_params (exp_type : String) (obj : List (String × JVal)) : Except String Params :=
  if exp_type = "schedule" then
    Except.ok (Params.schedule
      { max_runtime_s := jToInt ((lookupJ obj "max_runtime_s").getD (JVal.jnum 0))
        min_spacing_s := jToInt ((lookupJ obj "min_spacing_s").getD (JVal.jnum 0))
        allow_overlap := jToBool ((lookupJ obj "allow_overlap").getD (JVal.jbool false)) })
  else if exp_type = "alert_path" then
    match lookupJ obj "ack_window_s" with
    | none => Except.error "KeyError: ack_window_s"
    | some a =>
      match lookupJ obj "test_interval_s" with
      | none => Except.error "KeyError: test_interval_s"
      | some ti =>
        Except.ok (Params.alertPath { ack_window_s := jToInt a, test_interval_s := jToInt ti })
  else Except.error ("unknown expectation type: " ++ exp_type)

/-- An expectation row as consumed by the rule engine: the parsed `params_json`
object plus the two interval columns (rules.py 71-73). -/
structure ExpRow where
  params_obj : List (String × JVal)
  expected_interval_s : Int
  tolerance_s : Int
deriving DecidableEq, Repr

/-- An observation row (kind and observed_at are the only fields the engine reads). -/
structure ObsRow where
  kind : String
  observed_at : Int
deriving DecidableEq, Repr

/-- Evidence values: the Python evidence bags hold ints and strings. -/
inductive EV where
  | i (n : Int)
  | s (v : String)
deriving DecidableEq, Repr

/-- A violation tuple as returned by schedule_evaluate: (code, message, evidence). -/
abbrev SViol := String × String × List (String × EV)

/-- The message f-string of the missed violation (rules.py 90). -/
def missedMessage (expected tol age : Int) : String :=
  "Expected a start within " ++ toString expected ++ "s (+" ++ toString tol ++
    "s); last start was " ++ toString age ++ "s ago."

/-- The missed block of schedule_evaluate (rules.py 84-99): open missed with its
evidence when `age > expected + tol`, else close missed. -/
def missedCheck (expected tol t startAt : Int) : List SViol × List String :=
  let age := t - startAt
  if expected + tol < age then
    ([("missed", missedMessage expected tol age,
       [("last_start_at", EV.i startAt), ("age_s", EV.i age),
        ("expected_s", EV.i expected), ("tolerance_s", EV.i tol)])], [])
  else ([], ["missed"])

/-- The message f-string of the longrun violation (rules.py 117). -/
def longrunMessage (maxRun runFor : Int) : String :=
  "Run exceeded max_runtime_s=" ++ toString maxRun ++ "; running for " ++
    toString runFor ++ "s."

/-- The message f-string of the spacing violation (rules.py 164). -/
def spacingMessage (gap minSp : Int) : String :=
  "Start occurred " ++ toString gap ++ "s after previous end; min_spacing_s=" ++
    toString minSp ++ "."

/-- The longrun sub-block (rules.py 111-125) when no end at or after the newest
start exists: `run_for = t - startAt`; Python truthiness
`params.max_runtime_s and run_for > params.max_runtime_s` opens longrun, else
closes it. -/
def longrunPart (p : ScheduleParams) (t startAt : Int) : List SViol × List String :=
  if p.max_runtime_s ≠ 0 ∧ p.max_runtime_s < t - startAt then
    ([("longrun", longrunMessage p.max_runtime_s (t - startAt),
       [("start_at", EV.i startAt), ("running_for_s", EV.i (t - startAt)),
        ("max_runtime_s", EV.i p.max_runtime_s)])], [])
  else ([], ["longrun"])

/-- The overlap sub-block (rules.py 127-147): with allow_overlap false, the
source filters ALL starts (the variable is misleadingly called
starts_without_end) and opens overlap when the second-newest start is strictly
older than the newest, without checking it for a subsequent end. -/
def overlapPart (p : ScheduleParams) (startAt : Int) (obs : List ObsRow) :
    List SViol × List String :=
  if p.allow_overlap then ([], [])
  else
    if 1 < (obs.filter (fun r => r.kind == "start")).length then
      match (obs.filter (fun r => r.kind == "start"))[1]? with
      | some second =>
        if second.observed_at < startAt then
          ([("overlap", "Detected overlapping runs.",
             [("newest_start_at", EV.i startAt),
              ("other_start_at", EV.i second.observed_at)])], [])
        else ([], ["overlap"])
      | none => ([], ["overlap"])
    else ([], ["overlap"])

/-- The spacing sub-block (rules.py 152-173) when the newest run completed:
against the newest end strictly before the start, `gap = startAt - prev_end`;
open spacing when gap < min_spacing_s, close it when not, and emit nothing at
all when min_spacing_s is falsy or no previous end exists. -/
def spacingPart (p : ScheduleParams) (startAt : Int) (obs : List ObsRow) :
    List SViol × List String :=
  if p.min_spacing_s ≠ 0 then
    match obs.find? (fun r => r.kind == "end" && r.observed_at < startAt) with
    | some prev_end =>
      if startAt - prev_end.observed_at < p.min_spacing_s then
        ([("spacing", spacingMessage (startAt - prev_end.observed_at) p.min_spacing_s,
           [("gap_s", EV.i (startAt - prev_end.observed_at)),
            ("min_spacing_s", EV.i p.min_spacing_s),
            ("prev_end_at", EV.i prev_end.observed_at),
            ("start_at", EV.i startAt)])], [])
      else ([], ["spacing"])
    | none => ([], [])
  else ([], [])

/-- The overlap/longrun/spacing block of schedule_evaluate (rules.py 101-173),
with `startAt` the newest start's observed_at: find the newest end at or after
the start; if none, run the longrun then the overlap sub-blocks (Python append
order); if an end exists, close longrun and overlap and run the spacing
sub-block. -/
def runningCheck (p : ScheduleParams) (t startAt : Int) (obs : List ObsRow) :
    List SViol × List String :=
  match obs.find? (fun r => r.kind == "end" && startAt ≤ r.observed_at) with
  | none =>
    ((longrunPart p t startAt).1 ++ (overlapPart p startAt obs).1,
     (longrunPart p t startAt).2 ++ (overlapPart p startAt obs).2)
  | some _ =>
    ((spacingPart p startAt obs).1,
     ["longrun", "overlap"] ++ (spacingPart p startAt obs).2)

/-- schedule_evaluate (rules.py 56-175) with the clock made an explicit argument
`t` (the Python body reads `t = now_i()`). Returns (violations, codes_to_close)
in the Python append order: the missed block first, then the running/completed
block. If no start observation exists, returns ([], []). -/
def schedule_evaluate (exp : ExpRow) (obs_rows_desc : List ObsRow) (t : Int) :
    List SViol × List String :=
  match parse_params "schedule" exp.params_obj with
  | .ok (.schedule p) =>
    let expected := exp.expected_interval_s
    let tol := exp.tolerance_s
    match obs_rows_desc.find? (fun r => r.kind == "start") with
    | none => ([], [])
    | some last_start =>
      let m := missedCheck expected tol t last_start.observed_at
      let rc := runningCheck p t last_start.observed_at obs_rows_desc
      (m.1 ++ rc.1, m.2 ++ rc.2)
  | _ => ([], [])

/-- alertpath_should_send_test (rules.py 178-185) with the clock explicit: parse
the alert_path params (a raised KeyError propagates), then send when no prior
observation exists or when `t - last_obs_time ≥ test_interval_s`. -/
def alertpath_should_send_test (exp : ExpRow) (last_any_obs_time : Option Int)
    (t : Int) : Except String Bool :=
  match parse_params "alert_path" exp.params_obj with
  | .error e => Except.error e
  | .ok (.schedule _) => Except.error "unreachable"
  | .ok (.alertPath p) =>
    match last_any_obs_time with
    | none => Except.ok true
    | some lt => Except.ok (decide (p.test_interval_s ≤ t - lt))

/-- Trial status (db.py schema CHECK: status IN (pending, acked, expired)). -/
inductive TrialStatus where
  | pending
  | acked
  | expired
deriving DecidableEq, Repr

/-- An alert_trials row (db.py 53-61). -/
structure Trial where
  id : String
  sent_at : Int
  acked_at : Option Int
  status : TrialStatus
deriving DecidableEq, Repr

/-- SELECT from alert_trials WHERE id = ? (the id is the primary key). -/
def findTrial (tid : String) (tbl : List Trial) : Option Trial :=
  tbl.find? (fun r => r.id == tid)

/-- Store.ack_trial (db.py 240-256): SELECT status WHERE id; return False when the
row is absent or not pending; otherwise UPDATE acked_at = now, status = acked
WHERE id and return True. -/
def ack_trial (tid : String) (now : Int) (tbl : List Trial) : Bool × List Trial :=
  match findTrial tid tbl with
  | none => (false, tbl)
  | some r =>
    if r.status ≠ TrialStatus.pending then (false, tbl)
    else (true, tbl.map (fun s =>
      if s.id == tid then { s with acked_at := some now, status := TrialStatus.acked } else s))

/-- Store.expire_trial (db.py 266-273): UPDATE status = expired WHERE id = ? AND
status = pending (acked_at is not touched). -/
def expire_trial (tid : String) (tbl : List Trial) : List Trial :=
  tbl.map (fun s =>
    if s.id == tid && s.status == TrialStatus.pending then { s with status := TrialStatus.expired } else s)

/-- Store.pending_trials (db.py 258-264): SELECT * WHERE status = pending. -/
def pending_trials (tbl : List Trial) : List Trial :=
  tbl.filter (fun r => r.status == TrialStatus.pending)

/-- One Store call on the alert_trials table of a single expectation.
createTrial models Store.create_trial (db.py 227-238): INSERT of a fresh row with
status = pending and acked_at = NULL; an INSERT whose id collides with the primary
key raises and commits nothing, leaving the table unchanged. -/
inductive StoreOp where
  | createTrial (tid : String) (sent : Int)
  | ackTrial (tid : String) (now : Int)
  | expireTrial (tid : String)
deriving DecidableEq, Repr

/-- Apply one Store call to the alert_trials table. -/
def applyOp (tbl : List Trial) : StoreOp → List Trial
  | .createTrial tid sent =>
    if tbl.any (fun r => r.id == tid) then tbl
    else tbl ++ [{ id := tid, sent_at := sent, acked_at := none, status := TrialStatus.pending }]
  | .ackTrial tid now => (ack_trial tid now tbl).2
  | .expireTrial tid => expire_trial tid tbl

/-- The alert_trials table reached from the empty database by a sequence of Store calls. -/
def runOps (ops : List StoreOp) : List Trial :=
  ops.foldl applyOp []

/-- An expectations-table row as touched by set_enabled (db.py 165-173). -/
structure ExpTableRow where
  id : String
  is_enabled : Bool
  updated_at : Int
deriving DecidableEq, Repr

/-- Store.set_enabled (db.py 165-173): UPDATE is_enabled, updated_at WHERE id = ?;
returns rowcount > 0, i.e. whether any row matched. -/
def set_enabled (tbl : List ExpTableRow) (eid : String) (enabled : Bool) (now : Int) :
    Bool × List ExpTableRow :=
  (tbl.any (fun r => r.id == eid),
   tbl.map (fun r =>
     if r.id == eid then { r with is_enabled := enabled, updated_at := now } else r))

/-- HTTP responses of the admin enable/disable handler. -/
inductive AdminResp where
  | unauthorized
  | badRequest (msg : String)
  | okJson (ok : Bool) (enabled : Bool)
deriving DecidableEq, Repr

/-- Handler._handle_admin_enable (server.py 173-181): 401 without valid bearer
auth; 400 when the (stripped) id form field is empty; otherwise call
Store.set_enabled, discard its boolean result, and answer 200 with
JSON ok = true and the requested enabled value. -/
def handle_admin_enable (authed : Bool) (eid : String) (enable : Bool) (now : Int)
    (tbl : List ExpTableRow) : AdminResp × List ExpTableRow :=
  if !authed then (AdminResp.unauthorized, tbl)
  else if eid = "" then (AdminResp.badRequest "need id", tbl)
  else
    let res := set_enabled tbl eid enable now
    (AdminResp.okJson true enable, res.2)

/-- A violations-table row for one expectation (db.py 66-76); rows are kept in
insertion order, and within one checker pass all rows share detected_at. -/
structure ViolRow where
  code : String
  message : String
  evidence : List (String × EV)
  is_open : Bool
  detected_at : Int
deriving DecidableEq, Repr

/-- Store.open_violation (db.py 277-287): the most recent open row with the code
(ORDER BY detected_at DESC LIMIT 1; the last inserted open row in our
insertion-ordered list). -/
def open_violation (code : String) (vs : List ViolRow) : Option ViolRow :=
  (vs.filter (fun v => v.code == code && v.is_open)).getLast?

/-- Store.close_violations (db.py 303-315): with a nonempty code list, set
is_open = 0 on every open row whose code is in the list. -/
def close_violations (codes : List String) (vs : List ViolRow) : List ViolRow :=
  if codes = [] then vs
  else vs.map (fun v =>
    if v.is_open && codes.contains v.code then { v with is_open := false } else v)

/-- Store.last_observation_time without a kind filter (db.py 204-223): the
maximum observed_at over the expectation's observations, none when empty. -/
def last_observation_time (obs : List ObsRow) : Option Int :=
  obs.foldl (fun acc o =>
    match acc with
    | none => some o.observed_at
    | some m => some (max m o.observed_at)) none

/-- The per-expectation slice of the Store touched by one alert-path checker pass. -/
structure APState where
  observations : List ObsRow
  trials : List Trial
  violations : List ViolRow
deriving DecidableEq, Repr

/-- The message f-string for no_ack (server.py 296). -/
def noAckMessage (ackWindow tol : Int) : String :=
  "No ACK received within " ++ toString ackWindow ++ "s (+" ++ toString tol ++ "s)."

/-- Checker._check_alertpath (server.py 263-303) for one enabled alert_path
expectation, with the tick clock `now` explicit and `new_tid` standing for the
fresh secrets.token_urlsafe trial id generated when a synthetic test is sent
(assumed not to collide with an existing trial id). Email and webhook dispatch
are external side effects that do not touch Store state and are omitted. The
steps mirror the source in order: decide whether to send (a raised parse error
propagates), create the pending trial and append the ping observation if so,
re-parse the alert_path params, snapshot the pending trials, expire each one
whose age exceeds ack_window_s + tolerance_s and create a no_ack violation when
none is open, and finally close_violations on no_ack unconditionally. -/
def check_alertpath (exp : ExpRow) (now : Int) (new_tid : String) (st : APState) :
    Except String APState := do
  let last_obs := last_observation_time st.observations
  let should ← alertpath_should_send_test exp last_obs now
  let st1 :=
    if should then
      { st with
        trials := st.trials ++
          [{ id := new_tid, sent_at := now, acked_at := none, status := TrialStatus.pending }],
        observations := st.observations ++ [{ kind := "ping", observed_at := now }] }
    else st
  let p ← (match parse_params "alert_path" exp.params_obj with
           | .ok (.alertPath p) => Except.ok p
           | .ok (.schedule _) => Except.error "unreachable"
           | .error e => Except.error e)
  let pending := pending_trials st1.trials
  let st2 := pending.foldl (fun acc tr =>
      let age := now - tr.sent_at
      if p.ack_window_s + exp.tolerance_s < age then
        let acc1 := { acc with trials := expire_trial tr.id acc.trials }
        match open_violation "no_ack" acc1.violations with
        | some _ => acc1
        | none =>
          { acc1 with violations := acc1.violations ++
              [{ code := "no_ack",
                 message := noAckMessage p.ack_window_s exp.tolerance_s,
                 evidence := [("trial_id", EV.s tr.id), ("sent_at", EV.i tr.sent_at),
                              ("age_s", EV.i age)],
                 is_open := true, detected_at := now }] }
      else acc) st1
  Except.ok { st2 with violations := close_violations ["no_ack"] st2.violations }

/-- Checker.tick (server.py 221-237): iterate the enabled-expectations snapshot in
order, dispatching each to its per-type check; there is no try/except inside the
loop, so the first raised exception propagates out of tick. The per-expectation
body is abstracted as `f` (some msg models a raised exception). The result
records the expectations whose evaluation was attempted during this tick and the
exception, if any, that aborted it. -/
def tick {α : Type} (f : α → Option String) : List α → List α × Option String
  | [] => ([], none)
  | x :: xs =>
    match f x with
    | some e => ([x], some e)
    | none =>
      let rest := tick f xs
      (x :: rest.1, rest.2)

/-- One iteration of Checker.run (server.py 213-219): the exception escaping tick
is caught and logged there, so the loop survives to the next period; within the
aborted tick only the returned prefix of expectations was evaluated. -/
def runTickOnce {α : Type} (f : α → Option String) (xs : List α) : List α :=
  (tick f xs).1

/-- Row invariant on an alert_trials row: pending and expired rows carry no
acked_at, acked rows do. -/
def trialOK (r : Trial) : Prop :=
  (r.status = TrialStatus.pending → r.acked_at = none) ∧
  (r.status = TrialStatus.acked → r.acked_at ≠ none) ∧
  (r.status = TrialStatus.expired → r.acked_at = none)

/-- Table invariant: every row satisfies trialOK and ids are unique (primary key). -/
def tableOK (tbl : List Trial) : Prop :=
  (∀ r ∈ tbl, trialOK r) ∧ (tbl.map Trial.id).Nodup

/-- parse_params on "schedule" always succeeds with the defaulted record. -/
theorem parse_params_schedule (obj : List (String × JVal)) :
    parse_params "schedule" obj = Except.ok (Params.schedule
      { max_runtime_s := jToInt ((lookupJ obj "max_runtime_s").getD (JVal.jnum 0))
        min_spacing_s := jToInt ((lookupJ obj "min_spacing_s").getD (JVal.jnum 0))
        allow_overlap := jToBool ((lookupJ obj "allow_overlap").getD (JVal.jbool false)) }) :=
  rfl

/-- parse_params on "alert_path" unfolded: required-key lookups in source order. -/
theorem parse_params_alert_path (obj : List (String × JVal)) :
    parse_params "alert_path" obj =
      (match lookupJ obj "ack_window_s" with
       | none => Except.error "KeyError: ack_window_s"
       | some a =>
         match lookupJ obj "test_interval_s" with
         | none => Except.error "KeyError: test_interval_s"
         | some ti =>
           Except.ok (Params.alertPath { ack_window_s := jToInt a, test_interval_s := jToInt ti })) :=
  rfl

/-- Looking up a key skips a leading binding with a different key. -/
theorem lookupJ_cons_ne (k : String) (v : JVal) (obj : List (String × JVal)) (key : String)
    (h : k ≠ key) : lookupJ ((k, v) :: obj) key = lookupJ obj key := by
  simp [lookupJ, h]

/-- Mapping a function that fixes every element of a list is the identity. -/
theorem map_id_of {α : Type} (f : α → α) (l : List α) (h : ∀ x ∈ l, f x = x) :
    l.map f = l := by
  induction l with
  | nil => rfl
  | cons x xs ih =>
    rw [List.map_cons, h x (List.mem_cons_self x xs),
      ih (fun y hy => h y (List.mem_cons_of_mem x hy))]

/-- C5: for every schedule expectation and every observation list containing no
start observation, schedule_evaluate returns the pair of empty sets, regardless
of expectation age or other observation kinds. -/
theorem schedule_no_start_silent (exp : ExpRow) (obs : List ObsRow) (t : Int)
    (h : ∀ o ∈ obs, o.kind ≠ "start") :
    schedule_evaluate exp obs t = ([], []) := by
  have hnone : obs.find? (fun r => r.kind == "start") = none := by
    rw [List.find?_eq_none]
    intro x hx
    simpa using h x hx
  simp [schedule_evaluate, parse_params_schedule, hnone]

/-- Witness for C5 at a nonempty observation list without a start. -/
theorem schedule_no_start_silent_witness :
    schedule_evaluate ⟨[], 3600, 0⟩ [⟨"end", 10⟩, ⟨"ping", 5⟩, ⟨"ack", 1⟩] 100000 = ([], []) :=
  schedule_no_start_silent ⟨[], 3600, 0⟩ [⟨"end", 10⟩, ⟨"ping", 5⟩, ⟨"ack", 1⟩] 100000 (by decide)

/-- C2 (code bug): on observations start@0, end@10, start@50 evaluated at t=60
with allow_overlap=false, the code opens overlap (it compares only the two newest
start timestamps and never checks whether the earlier start has a subsequent
end), although start@0 is followed by end@10. -/
theorem schedule_overlap_opened_after_completed_run :
    (schedule_evaluate
      { params_obj := [("max_runtime_s", JVal.jnum 0), ("min_spacing_s", JVal.jnum 0),
                       ("allow_overlap", JVal.jbool false)],
        expected_interval_s := 3600, tolerance_s := 0 }
      [{ kind := "start", observed_at := 50 }, { kind := "end", observed_at := 10 },
       { kind := "start", observed_at := 0 }]
      60).1
    = [("overlap", "Detected overlapping runs.",
        [("newest_start_at", EV.i 50), ("other_start_at", EV.i 0)])] := by
  rfl

/-- C6 counterexample: schedule_evaluate is not independent of the clock; two
calls on identical expectation and observations at different times differ. -/
theorem schedule_evaluate_depends_on_clock :
    schedule_evaluate ⟨[], 60, 0⟩ [⟨"start", 0⟩] 50 ≠
      schedule_evaluate ⟨[], 60, 0⟩ [⟨"start", 0⟩] 200 := by
  decide

/-- C6 amended: the rule engine is deterministic once the clock it reads is
fixed: two calls with identical inputs evaluated at the same current time return
identical outputs, for schedule_evaluate and alertpath_should_send_test alike. -/
theorem rule_engine_deterministic_at_fixed_time (exp : ExpRow) (obs : List ObsRow)
    (l : Option Int) (t1 t2 : Int) (h : t1 = t2) :
    schedule_evaluate exp obs t1 = schedule_evaluate exp obs t2 ∧
    alertpath_should_send_test exp l t1 = alertpath_should_send_test exp l t2 := by
  subst h
  exact ⟨rfl, rfl⟩

/-- Witness for the amended C6 at concrete inputs. -/
theorem rule_engine_deterministic_witness :
    schedule_evaluate ⟨[("ack_window_s", JVal.jnum 300), ("test_interval_s", JVal.jnum 60)], 3600, 0⟩
        [⟨"start", 0⟩] 100 =
      schedule_evaluate ⟨[("ack_window_s", JVal.jnum 300), ("test_interval_s", JVal.jnum 60)], 3600, 0⟩
        [⟨"start", 0⟩] 100 ∧
    alertpath_should_send_test ⟨[("ack_window_s", JVal.jnum 300), ("test_interval_s", JVal.jnum 60)], 3600, 0⟩
        (some 0) 100 =
      alertpath_should_send_test ⟨[("ack_window_s", JVal.jnum 300), ("test_interval_s", JVal.jnum 60)], 3600, 0⟩
        (some 0) 100 :=
  rule_engine_deterministic_at_fixed_time
    ⟨[("ack_window_s", JVal.jnum 300), ("test_interval_s", JVal.jnum 60)], 3600, 0⟩ [⟨"start", 0⟩]
    (some 0) 100 100 rfl

/-- C7 counterexample: parsing alert_path params with ack_window_s absent does
not succeed; the subscript raises KeyError. -/
theorem parse_params_alert_path_missing_key_fails :
    parse_params "alert_path" [] = Except.error "KeyError: ack_window_s" :=
  rfl

/-- C7 amended: unknown keys are ignored for both expectation types; for
schedule, missing keys take the documented defaults (numeric 0,
allow_overlap false) and parsing succeeds with every key absent; for
alert_path, ack_window_s and test_interval_s are required and parsing raises
KeyError when ack_window_s is absent. -/
theorem parse_params_unknown_keys_and_defaults (obj : List (String × JVal))
    (k : String) (v : JVal)
    (h1 : k ≠ "max_runtime_s") (h2 : k ≠ "min_spacing_s") (h3 : k ≠ "allow_overlap")
    (h4 : k ≠ "ack_window_s") (h5 : k ≠ "test_interval_s") :
    parse_params "schedule" ((k, v) :: obj) = parse_params "schedule" obj ∧
    parse_params "alert_path" ((k, v) :: obj) = parse_params "alert_path" obj ∧
    parse_params "schedule" [] = Except.ok (Params.schedule
      { max_runtime_s := 0, min_spacing_s := 0, allow_overlap := false }) ∧
    parse_params "alert_path" [] = Except.error "KeyError: ack_window_s" := by
  refine ⟨?_, ?_, rfl, rfl⟩
  · rw [parse_params_schedule, parse_params_schedule,
      lookupJ_cons_ne k v obj "max_runtime_s" h1,
      lookupJ_cons_ne k v obj "min_spacing_s" h2,
      lookupJ_cons_ne k v obj "allow_overlap" h3]
  · rw [parse_params_alert_path, parse_params_alert_path,
      lookupJ_cons_ne k v obj "ack_window_s" h4,
      lookupJ_cons_ne k v obj "test_interval_s" h5]

/-- Witness for the amended C7 at a concrete unknown key. -/
theorem parse_params_unknown_keys_and_defaults_witness :
    parse_params "schedule" [("mystery", JVal.jnum 7)] = parse_params "schedule" [] ∧
    parse_params "alert_path" [("mystery", JVal.jnum 7)] = parse_params "alert_path" [] ∧
    parse_params "schedule" [] = Except.ok (Params.schedule
      { max_runtime_s := 0, min_spacing_s := 0, allow_overlap := false }) ∧
    parse_params "alert_path" [] = Except.error "KeyError: ack_window_s" :=
  parse_params_unknown_keys_and_defaults [] "mystery" (JVal.jnum 7)
    (by decide) (by decide) (by decide) (by decide) (by decide)

/-- C3 (code bug): a raised exception while evaluating the first expectation
aborts the tick; the second expectation in the snapshot is not evaluated in that
tick, even after Checker.run catches and logs the error. -/
theorem checker_tick_aborts_after_first_error :
    tick (fun n : Nat => if n = 1 then some "boom" else none) [1, 2] = ([1], some "boom") ∧
    2 ∉ runTickOnce (fun n : Nat => if n = 1 then some "boom" else none) [1, 2] := by
  decide

/-- C1 (code bug): one alert-path checker pass at now=400 over a pending trial
sent at 0 with ack_window_s=300 and tolerance 0 expires the trial and creates
the no_ack violation with the documented evidence, but the unconditional
close_violations at the end of the same pass leaves it closed (is_open=false). -/
theorem checker_no_ack_closed_in_same_pass :
    check_alertpath
      { params_obj := [("ack_window_s", JVal.jnum 300), ("test_interval_s", JVal.jnum 3600)],
        expected_interval_s := 3600, tolerance_s := 0 }
      400 "T2"
      { observations := [{ kind := "ping", observed_at := 0 }],
        trials := [{ id := "T1", sent_at := 0, acked_at := none, status := TrialStatus.pending }],
        violations := [] }
    = Except.ok
      { observations := [{ kind := "ping", observed_at := 0 }],
        trials := [{ id := "T1", sent_at := 0, acked_at := none, status := TrialStatus.expired }],
        violations := [{ code := "no_ack",
                         message := "No ACK received within 300s (+0s).",
                         evidence := [("trial_id", EV.s "T1"), ("sent_at", EV.i 0),
                                      ("age_s", EV.i 400)],
                         is_open := false, detected_at := 400 }] } := by
  rfl

/-- C10: an authenticated enable/disable request with a non-empty id matching no
stored expectation is answered 200 with ok=true and the requested enabled value,
while set_enabled matched no row (returns false) and the table is unchanged. -/
theorem admin_enable_unknown_id_ok (tbl : List ExpTableRow) (eid : String)
    (enable : Bool) (now : Int) (hne : eid ≠ "") (hmiss : ∀ r ∈ tbl, r.id ≠ eid) :
    handle_admin_enable true eid enable now tbl = (AdminResp.okJson true enable, tbl) ∧
    (set_enabled tbl eid enable now).1 = false := by
  have hmap : tbl.map (fun r =>
      if r.id == eid then { r with is_enabled := enable, updated_at := now } else r) = tbl :=
    map_id_of _ tbl (fun r hr => by simp [hmiss r hr])
  have hany : tbl.any (fun r => r.id == eid) = false := by
    rw [List.any_eq_false]
    intro r hr
    simp [hmiss r hr]
  have hse : set_enabled tbl eid enable now = (false, tbl) := by
    unfold set_enabled
    rw [hmap, hany]
  refine ⟨?_, by rw [hse]⟩
  simp [handle_admin_enable, hne, hse]

/-- Witness for C10 at a concrete one-row table and unmatched id. -/
theorem admin_enable_unknown_id_ok_witness :
    handle_admin_enable true "b" true 99 [⟨"a", false, 0⟩] =
      (AdminResp.okJson true true, [⟨"a", false, 0⟩]) ∧
    (set_enabled [⟨"a", false, 0⟩] "b" true 99).1 = false :=
  admin_enable_unknown_id_ok [⟨"a", false, 0⟩] "b" true 99 (by decide) (by decide)

/-- The longrun sub-block emits no violation coded missed. -/
theorem longrunPart_no_missed (p : ScheduleParams) (t s : Int) :
    ∀ v ∈ (longrunPart p t s).1, v.1 ≠ "missed" := by
  intro v hv
  unfold longrunPart at hv
  repeat' split at hv
  all_goals simp_all

/-- The overlap sub-block emits no violation coded missed. -/
theorem overlapPart_no_missed (p : ScheduleParams) (s : Int) (obs : List ObsRow) :
    ∀ v ∈ (overlapPart p s obs).1, v.1 ≠ "missed" := by
  intro v hv
  unfold overlapPart at hv
  repeat' split at hv
  all_goals simp_all

/-- The spacing sub-block emits no violation coded missed. -/
theorem spacingPart_no_missed (p : ScheduleParams) (s : Int) (obs : List ObsRow) :
    ∀ v ∈ (spacingPart p s obs).1, v.1 ≠ "missed" := by
  intro v hv
  unfold spacingPart at hv
  repeat' split at hv
  all_goals simp_all

/-- The running/completed block of schedule_evaluate emits no violation coded missed. -/
theorem runningCheck_no_missed (p : ScheduleParams) (t s : Int) (obs : List ObsRow) :
    ∀ v ∈ (runningCheck p t s obs).1, v.1 ≠ "missed" := by
  unfold runningCheck
  cases hfind : obs.find? (fun r => r.kind == "end" && s ≤ r.observed_at) with
  | none =>
    intro v hv
    rcases List.mem_append.mp hv with h | h
    · exact longrunPart_no_missed p t s v h
    · exact overlapPart_no_missed p s obs v h
  | some e =>
    intro v hv
    exact spacingPart_no_missed p s obs v hv

/-- C4: with at least one start observation (`ls` the newest), schedule_evaluate
at time t opens missed iff `t - ls.observed_at > expected_interval_s +
tolerance_s`; when it does, the missed violation is unique and carries exactly
the evidence last_start_at, age_s, expected_s and tolerance_s; otherwise missed
is in the close set. -/
theorem schedule_missed_iff (exp : ExpRow) (obs : List ObsRow) (t : Int) (ls : ObsRow)
    (h : obs.find? (fun r => r.kind == "start") = some ls) :
    ((∃ v ∈ (schedule_evaluate exp obs t).1, v.1 = "missed") ↔
        exp.expected_interval_s + exp.tolerance_s < t - ls.observed_at) ∧
    (exp.expected_interval_s + exp.tolerance_s < t - ls.observed_at →
      (schedule_evaluate exp obs t).1.filter (fun v => v.1 == "missed") =
        [("missed",
          missedMessage exp.expected_interval_s exp.tolerance_s (t - ls.observed_at),
          [("last_start_at", EV.i ls.observed_at), ("age_s", EV.i (t - ls.observed_at)),
           ("expected_s", EV.i exp.expected_interval_s), ("tolerance_s", EV.i exp.tolerance_s)])]) ∧
    (¬ exp.expected_interval_s + exp.tolerance_s < t - ls.observed_at →
      "missed" ∈ (schedule_evaluate exp obs t).2) := by
  obtain ⟨p, hse⟩ : ∃ p, schedule_evaluate exp obs t =
      ((missedCheck exp.expected_interval_s exp.tolerance_s t ls.observed_at).1 ++
         (runningCheck p t ls.observed_at obs).1,
       (missedCheck exp.expected_interval_s exp.tolerance_s t ls.observed_at).2 ++
         (runningCheck p t ls.observed_at obs).2) := by
    refine ⟨{ max_runtime_s := jToInt ((lookupJ exp.params_obj "max_runtime_s").getD (JVal.jnum 0)),
              min_spacing_s := jToInt ((lookupJ exp.params_obj "min_spacing_s").getD (JVal.jnum 0)),
              allow_overlap := jToBool ((lookupJ exp.params_obj "allow_overlap").getD (JVal.jbool false)) }, ?_⟩
    unfold schedule_evaluate
    rw [parse_params_schedule, h]
  rw [hse]
  by_cases hc : exp.expected_interval_s + exp.tolerance_s < t - ls.observed_at
  · have hm : missedCheck exp.expected_interval_s exp.tolerance_s t ls.observed_at =
        ([("missed",
           missedMessage exp.expected_interval_s exp.tolerance_s (t - ls.observed_at),
           [("last_start_at", EV.i ls.observed_at), ("age_s", EV.i (t - ls.observed_at)),
            ("expected_s", EV.i exp.expected_interval_s),
            ("tolerance_s", EV.i exp.tolerance_s)])], []) := by
      simp [missedCheck, hc]
    rw [hm]
    refine ⟨⟨fun _ => hc, fun _ => ⟨("missed",
        missedMessage exp.expected_interval_s exp.tolerance_s (t - ls.observed_at),
        [("last_start_at", EV.i ls.observed_at), ("age_s", EV.i (t - ls.observed_at)),
         ("expected_s", EV.i exp.expected_interval_s), ("tolerance_s", EV.i exp.tolerance_s)]),
        by simp, rfl⟩⟩, fun _ => ?_, fun hcontra => absurd hc hcontra⟩
    have h2 : List.filter (fun v : SViol => v.1 == "missed")
        (runningCheck p t ls.observed_at obs).1 = [] := by
      rw [List.filter_eq_nil_iff]
      intro v hv
      simpa using runningCheck_no_missed p t ls.observed_at obs v hv
    simp [List.filter_append, h2]
  · have hm : missedCheck exp.expected_interval_s exp.tolerance_s t ls.observed_at =
        ([], ["missed"]) := by
      simp [missedCheck, hc]
    rw [hm]
    refine ⟨⟨?_, fun hcc => absurd hcc hc⟩, fun hcc => absurd hcc hc, fun _ => by simp⟩
    rintro ⟨v, hv, hveq⟩
    simp only [List.nil_append] at hv
    exact absurd hveq (runningCheck_no_missed p t ls.observed_at obs v hv)

/-- Witness for C4: interval 60, tolerance 10, start at 0, evaluated at t=100. -/
theorem schedule_missed_iff_witness :
    (schedule_evaluate ⟨[], 60, 10⟩ [⟨"start", 0⟩] 100).1.filter (fun v => v.1 == "missed") =
      [("missed", missedMessage 60 10 100,
        [("last_start_at", EV.i 0), ("age_s", EV.i 100),
         ("expected_s", EV.i 60), ("tolerance_s", EV.i 10)])] :=
  (schedule_missed_iff ⟨[], 60, 10⟩ [⟨"start", 0⟩] 100 ⟨"start", 0⟩ (by decide)).2.1 (by decide)

/-- findTrial commutes with mapping an id-preserving function over the table. -/
theorem findTrial_map (tid : String) (g : Trial → Trial) (tbl : List Trial)
    (hid : ∀ s, (g s).id = s.id) :
    findTrial tid (tbl.map g) = (findTrial tid tbl).map g := by
  induction tbl with
  | nil => rfl
  | cons x xs ih =>
    simp only [findTrial, List.map_cons, List.find?_cons] at *
    rw [hid x]
    cases hx : (x.id == tid) <;> simp [hx, ih]

/-- A second ack_trial after a successful one returns false and changes nothing. -/
theorem ack_twice (tbl : List Trial) (tid : String) (n n2 : Int)
    (h : (ack_trial tid n tbl).1 = true) :
    ack_trial tid n2 (ack_trial tid n tbl).2 = (false, (ack_trial tid n tbl).2) := by
  rcases hft : findTrial tid tbl with _ | r
  · simp [ack_trial, hft] at h
  · by_cases hp : r.status = TrialStatus.pending
    · have hack : ack_trial tid n tbl = (true, tbl.map (fun s =>
          if s.id == tid then { s with acked_at := some n, status := TrialStatus.acked } else s)) := by
        simp [ack_trial, hft, hp]
      have hid : ∀ s : Trial, ((fun s : Trial =>
          if s.id == tid then { s with acked_at := some n, status := TrialStatus.acked } else s) s).id
            = s.id := by
        intro s
        by_cases hs : s.id = tid <;> simp [hs]
      have hft2 : List.find? (fun s : Trial => s.id == tid) tbl = some r := hft
      have hr0 := List.find?_some hft2
      have hr : (r.id == tid) = true := hr0
      have hf2 : findTrial tid (tbl.map (fun s : Trial =>
          if s.id == tid then { s with acked_at := some n, status := TrialStatus.acked } else s)) =
          some { r with acked_at := some n, status := TrialStatus.acked } := by
        rw [findTrial_map tid _ tbl hid, hft]
        simp only [Option.map_some']
        rw [if_pos hr]
      rw [hack]
      unfold ack_trial
      rw [hf2]
      simp
    · simp [ack_trial, hft, hp] at h

/-- C8: ack_trial transitions only from pending and returns whether it did
(false with no state change for unknown or non-pending trials); a second ack
after a successful one returns false and changes nothing; expire_trial is a
no-op when the trial with that id is not pending. -/
theorem ack_expire_transition_discipline (tbl : List Trial) (tid : String) (n n2 : Int) :
    ((ack_trial tid n tbl).1 = true ↔
      ∃ r, findTrial tid tbl = some r ∧ r.status = TrialStatus.pending) ∧
    ((ack_trial tid n tbl).1 = false → (ack_trial tid n tbl).2 = tbl) ∧
    ((ack_trial tid n tbl).1 = true →
      ack_trial tid n2 (ack_trial tid n tbl).2 = (false, (ack_trial tid n tbl).2)) ∧
    ((∀ r ∈ tbl, r.id = tid → r.status ≠ TrialStatus.pending) → expire_trial tid tbl = tbl) := by
  have hexp : (∀ r ∈ tbl, r.id = tid → r.status ≠ TrialStatus.pending) →
      expire_trial tid tbl = tbl := by
    intro hnp
    unfold expire_trial
    apply map_id_of
    intro s hs
    by_cases hid : s.id = tid
    · have hst := hnp s hs hid
      simp [hst]
    · simp [hid]
  refine ⟨?_, ?_, ack_twice tbl tid n n2, hexp⟩
  · cases hft : findTrial tid tbl with
    | none =>
      simp [ack_trial, hft]
    | some r =>
      by_cases hp : r.status = TrialStatus.pending
      · have hack : (ack_trial tid n tbl).1 = true := by
          simp [ack_trial, hft, hp]
        rw [hack]
        simp only [true_iff]
        exact ⟨r, rfl, hp⟩
      · have hack : (ack_trial tid n tbl).1 = false := by
          simp [ack_trial, hft, hp]
        rw [hack]
        constructor
        · intro hfalse
          exact absurd hfalse (by simp)
        · rintro ⟨q, hq, hqp⟩
          cases hq
          exact absurd hqp hp
  · intro hfalse
    rcases hft : findTrial tid tbl with _ | r
    · simp [ack_trial, hft]
    · by_cases hp : r.status = TrialStatus.pending
      · have : (ack_trial tid n tbl).1 = true := by
          simp [ack_trial, hft, hp]
        rw [this] at hfalse
        cases hfalse
      · simp [ack_trial, hft, hp]

/-- Witness for C8: a successful ack on a pending trial, then a failing second ack. -/
theorem ack_expire_transition_discipline_witness :
    ack_trial "t" 7 (ack_trial "t" 5 [⟨"t", 0, none, TrialStatus.pending⟩]).2 =
      (false, (ack_trial "t" 5 [⟨"t", 0, none, TrialStatus.pending⟩]).2) :=
  (ack_expire_transition_discipline [⟨"t", 0, none, TrialStatus.pending⟩] "t" 5 7).2.2.1 (by decide)

/-- Mapping two pointwise-equal functions over a list gives the same list. -/
theorem map_congr_on {α β : Type} (f g2 : α → β) (l : List α) (h : ∀ x ∈ l, f x = g2 x) :
    l.map f = l.map g2 := by
  induction l with
  | nil => rfl
  | cons x xs ih =>
    rw [List.map_cons, List.map_cons, h x (List.mem_cons_self x xs),
      ih (fun y hy => h y (List.mem_cons_of_mem x hy))]

/-- Every Store call on the alert_trials table preserves the table invariant. -/
theorem tableOK_step (tbl : List Trial) (op : StoreOp) (h : tableOK tbl) :
    tableOK (applyOp tbl op) := by
  obtain ⟨hinv, hnd⟩ := h
  cases op with
  | createTrial tid sent =>
    by_cases hdup : tbl.any (fun r => r.id == tid) = true
    · simpa [applyOp, hdup] using ⟨hinv, hnd⟩
    · have hnotin : tid ∉ tbl.map Trial.id := by
        intro hmem
        rcases List.mem_map.mp hmem with ⟨r, hr, hid⟩
        exact hdup (List.any_eq_true.mpr ⟨r, hr, by simp [hid]⟩)
      constructor
      · intro r hr
        rw [applyOp] at hr
        rw [if_neg hdup] at hr
        rcases List.mem_append.mp hr with hr | hr
        · exact hinv r hr
        · have : r = ⟨tid, sent, none, TrialStatus.pending⟩ := by simpa using hr
          subst this
          exact ⟨fun _ => rfl, fun hx => by simp at hx, fun hx => by simp at hx⟩
      · rw [applyOp, if_neg hdup, List.map_append, List.nodup_append]
        refine ⟨hnd, by simp, ?_⟩
        intro a ha hb
        simp only [List.map_cons, List.map_nil, List.mem_cons, List.not_mem_nil,
          or_false] at hb
        subst hb
        exact hnotin ha
  | ackTrial tid now =>
    show tableOK (ack_trial tid now tbl).2
    rcases hft : findTrial tid tbl with _ | r
    · have : (ack_trial tid now tbl).2 = tbl := by simp [ack_trial, hft]
      rw [this]
      exact ⟨hinv, hnd⟩
    · by_cases hp : r.status = TrialStatus.pending
      · have hack2 : (ack_trial tid now tbl).2 = tbl.map (fun s =>
            if s.id == tid then { s with acked_at := some now, status := TrialStatus.acked }
            else s) := by
          simp [ack_trial, hft, hp]
        rw [hack2]
        constructor
        · intro q hq
          rcases List.mem_map.mp hq with ⟨s, hs, hqs⟩
          by_cases hsid : s.id = tid
          · have : q = { s with acked_at := some now, status := TrialStatus.acked } := by
              rw [← hqs]; simp [hsid]
            subst this
            exact ⟨fun hx => by simp at hx, fun _ => by simp, fun hx => by simp at hx⟩
          · have : q = s := by rw [← hqs]; simp [hsid]
            subst this
            exact hinv _ hs
        · have hids : (tbl.map (fun s =>
              if s.id == tid then { s with acked_at := some now, status := TrialStatus.acked }
              else s)).map Trial.id = tbl.map Trial.id := by
            rw [List.map_map]
            apply map_congr_on
            intro x _
            simp only [Function.comp_apply]
            split <;> rfl
          rw [hids]
          exact hnd
      · have : (ack_trial tid now tbl).2 = tbl := by simp [ack_trial, hft, hp]
        rw [this]
        exact ⟨hinv, hnd⟩
  | expireTrial tid =>
    constructor
    · intro q hq
      rw [applyOp] at hq
      unfold expire_trial at hq
      rcases List.mem_map.mp hq with ⟨s, hs, hqs⟩
      by_cases hc : (s.id == tid && s.status == TrialStatus.pending) = true
      · have hpend : s.status = TrialStatus.pending := by
          simp only [Bool.and_eq_true, beq_iff_eq] at hc
          exact hc.2
        have : q = { s with status := TrialStatus.expired } := by
          rw [← hqs, if_pos hc]
        subst this
        refine ⟨fun hx => by simp at hx, fun hx => by simp at hx, fun _ => ?_⟩
        exact (hinv s hs).1 hpend
      · have : q = s := by rw [← hqs, if_neg hc]
        subst this
        exact hinv _ hs
    · rw [applyOp]
      unfold expire_trial
      have hids : (tbl.map (fun s =>
          if s.id == tid && s.status == TrialStatus.pending
          then { s with status := TrialStatus.expired } else s)).map Trial.id =
            tbl.map Trial.id := by
        rw [List.map_map]
        apply map_congr_on
        intro x _
        simp only [Function.comp_apply]
        split <;> rfl
      rw [hids]
      exact hnd

/-- The table reached from the empty database by any call sequence satisfies the
table invariant. -/
theorem tableOK_runOps (ops : List StoreOp) : tableOK (runOps ops) := by
  suffices hgen : ∀ tbl, tableOK tbl → tableOK (ops.foldl applyOp tbl) by
    exact hgen [] ⟨by simp, by simp⟩
  induction ops with
  | nil =>
    intro tbl h
    exact h
  | cons op rest ih =>
    intro tbl h
    exact ih (applyOp tbl op) (tableOK_step tbl op h)

/-- Once a trial row is not pending, any further Store call leaves that exact
row in the table: acked and expired are absorbing states. -/
theorem nonpending_absorbing (tbl : List Trial) (op : StoreOp) (r : Trial)
    (h : tableOK tbl) (hr : r ∈ tbl) (hnp : r.status ≠ TrialStatus.pending) :
    r ∈ applyOp tbl op := by
  obtain ⟨hinv, hnd⟩ := h
  cases op with
  | createTrial tid sent =>
    by_cases hdup : (tbl.any fun q => q.id == tid) = true
    · rw [applyOp, if_pos hdup]
      exact hr
    · rw [applyOp, if_neg hdup]
      exact List.mem_append_left _ hr
  | expireTrial tid =>
    rw [applyOp]
    unfold expire_trial
    have hfix : (fun s : Trial =>
        if s.id == tid && s.status == TrialStatus.pending
        then { s with status := TrialStatus.expired } else s) r = r := by
      simp [hnp]
    exact hfix ▸ List.mem_map_of_mem _ hr
  | ackTrial tid now =>
    rw [applyOp]
    rcases hft : findTrial tid tbl with _ | q
    · have heq : (ack_trial tid now tbl).2 = tbl := by simp [ack_trial, hft]
      rw [heq]
      exact hr
    · by_cases hqp : q.status = TrialStatus.pending
      · have hack2 : (ack_trial tid now tbl).2 = tbl.map (fun s =>
            if s.id == tid then { s with acked_at := some now, status := TrialStatus.acked }
            else s) := by
          simp [ack_trial, hft, hqp]
        rw [hack2]
        have hrid : r.id ≠ tid := by
          intro hid
          have hq_mem : q ∈ tbl := List.mem_of_find?_eq_some hft
          have hq0 := List.find?_some
            (show List.find? (fun s : Trial => s.id == tid) tbl = some q from hft)
          have hqid : q.id = tid := by simpa using hq0
          have hrq : r = q := List.inj_on_of_nodup_map hnd hr hq_mem (by rw [hid, hqid])
          exact hnp (hrq ▸ hqp)
        have hfix : (fun s : Trial =>
            if s.id == tid then { s with acked_at := some now, status := TrialStatus.acked }
            else s) r = r := by
          simp [hrid]
        exact hfix ▸ List.mem_map_of_mem _ hr
      · have heq : (ack_trial tid now tbl).2 = tbl := by simp [ack_trial, hft, hqp]
        rw [heq]
        exact hr

/-- C9: in every table reachable from the empty database by create_trial,
ack_trial and expire_trial calls, acked rows have acked_at set and expired rows
have acked_at absent; and a row that has left pending is absorbed: it survives
any further call unchanged, so each trial transitions out of pending at most
once. -/
theorem trial_invariants_reachable (ops : List StoreOp) :
    (∀ r ∈ runOps ops,
      (r.status = TrialStatus.acked → r.acked_at ≠ none) ∧
      (r.status = TrialStatus.expired → r.acked_at = none)) ∧
    (∀ op : StoreOp, ∀ r ∈ runOps ops, r.status ≠ TrialStatus.pending →
      r ∈ runOps (ops ++ [op])) := by
  have h := tableOK_runOps ops
  constructor
  · intro r hr
    exact ⟨(h.1 r hr).2.1, (h.1 r hr).2.2⟩
  · intro op r hr hnp
    rw [runOps, List.foldl_append, List.foldl_cons, List.foldl_nil]
    exact nonpending_absorbing (runOps ops) op r h hr hnp

/-- Witness for C9: create then ack a trial; the acked row carries its acked_at
and survives a subsequent expire_trial call. -/
theorem trial_invariants_reachable_witness :
    ((⟨"t", 0, some 5, TrialStatus.acked⟩ : Trial).acked_at ≠ none) ∧
    (⟨"t", 0, some 5, TrialStatus.acked⟩ : Trial) ∈
      runOps ([StoreOp.createTrial "t" 0, StoreOp.ackTrial "t" 5] ++ [StoreOp.expireTrial "t"]) :=
  ⟨((trial_invariants_reachable [StoreOp.createTrial "t" 0, StoreOp.ackTrial "t" 5]).1
      ⟨"t", 0, some 5, TrialStatus.acked⟩ (by decide)).1 (by decide),
   (trial_invariants_reachable [StoreOp.createTrial "t" 0, StoreOp.ackTrial "t" 5]).2
      (StoreOp.expireTrial "t") ⟨"t", 0, some 5, TrialStatus.acked⟩ (by decide) (by decide)⟩
